import Mathlib

/-!
Verification of the theme de-duplication / article reassignment workflow and
the daily question selection rotator of the current-affairs review dashboard.

The embedding models the two relational sub-worlds the workflows touch:

* the theme world (`Theme` / `CurrentAffair` rows, used by
  `ThemeRepository.merge_themes`, `ThemeRepository.find_similar_themes` and
  `ContentService.merge_themes`), and
* the quiz world (`LearningItem` / `MCQ` / `ItemRelation` / `NewsArticle`
  rows, used by `QuestionRepository.save_daily_selected`,
  `QuestionRepository.update_question` and
  `TrendingRepository.auto_select_daily_questions`).

Database sessions (`get_db`) commit on success and roll back on exception;
foreign-key checks of the storage layer are modelled at the statement level:
an UPDATE that rewrites a foreign key to a missing row, or a DELETE of a row
that is still referenced, raises, which makes `get_db` roll the whole
transaction back and re-raise to the caller.
-/

namespace CAVerify

/-! ## Theme world: data model

Modelled from the spec: the ORM classes `Theme` and `CurrentAffair` are
imported by `ThemeRepository` but are not declared in the repository sources;
their shape is taken from the spec's data model (a Theme has identity and a
display name; an Article has identity, a nullable Theme reference and a
publication date) together with the columns the repository code reads. -/

/-- A row of the themes table: identity and display name. -/
@[ext]
structure Theme where
  id : Nat
  name : String
deriving Repr, DecidableEq

/-- A row of the articles table (`CurrentAffair`): identity, nullable
foreign key to a theme, and a publication date (as an ordinal). -/
@[ext]
structure CurrentAffair where
  id : Nat
  theme_id : Option Nat
  date : Nat
deriving Repr, DecidableEq

/-- The slice of database state the theme workflows touch. -/
@[ext]
structure ThemeDB where
  themes : List Theme
  articles : List CurrentAffair
deriving Repr, DecidableEq

/-- Storage-layer errors that propagate out of a transaction. -/
inductive DbError where
  | fkViolation
deriving Repr, DecidableEq

/-- Does a theme row with the given id exist?  This is the referential check
the storage layer performs for the `theme_id` foreign key. -/
def themeExists (db : ThemeDB) (tid : Nat) : Bool :=
  db.themes.any (fun t => decide (t.id = tid))

/-- `ThemeRepository.get_theme_by_id`: first theme row with the given id. -/
def get_theme_by_id (db : ThemeDB) (theme_id : Nat) : Option Theme :=
  db.themes.find? (fun t => decide (t.id = theme_id))

/-- Articles whose `theme_id` references the given theme.  The source orders
them by date descending; the order is irrelevant to every use below (only
length and membership are consumed), so the filter order is kept. -/
def articlesOf (db : ThemeDB) (theme_id : Nat) : List CurrentAffair :=
  db.articles.filter (fun a => decide (a.theme_id = some theme_id))

/-- `ThemeRepository.get_theme_with_articles`: the theme row plus all
articles referencing it, or `none` when the theme is absent. -/
def get_theme_with_articles (db : ThemeDB) (theme_id : Nat) :
    Option (Theme × List CurrentAffair) :=
  match db.themes.find? (fun t => decide (t.id = theme_id)) with
  | none => none
  | some t => some (t, articlesOf db theme_id)

/-- `ThemeRepository.merge_themes` with the storage layer's foreign-key
checks made explicit.  The repository issues two statements:
an UPDATE setting `theme_id = target_id` on every article with
`theme_id = source_id` (rejected when it moves at least one row and the
target theme does not exist), then a DELETE of the source theme row
(rejected when an article still references the deleted row).  A rejected
statement raises `DbError.fkViolation`; the returned count is the number of
rows the UPDATE matched. -/
def merge_themes_repo (db : ThemeDB) (source_id target_id : Nat) :
    Except DbError (ThemeDB × Nat) :=
  let moved := (db.articles.filter (fun a => decide (a.theme_id = some source_id))).length
  if moved > 0 && !(themeExists db target_id) then
    .error .fkViolation
  else
    let articles2 := db.articles.map (fun a =>
      if a.theme_id = some source_id then { a with theme_id := some target_id } else a)
    if themeExists db source_id && articles2.any (fun a => decide (a.theme_id = some source_id)) then
      .error .fkViolation
    else
      .ok ({ themes := db.themes.filter (fun t => decide (t.id ≠ source_id)),
             articles := articles2 }, moved)

/-- The dictionary `ContentService.merge_themes` returns. -/
@[ext]
structure MergeResult where
  success : Bool
  articles_moved : Option Nat
  target_theme_id : Option Nat
  error : Option String
deriving Repr, DecidableEq

/-- `ContentService.merge_themes` run inside a `get_db` session: looks up the
source theme with its articles, returns a not-found dictionary when absent,
otherwise runs `merge_themes_repo` and commits; a storage-layer failure rolls
the session back (state unchanged) and re-raises to the caller
(`Except.error`). -/
def merge_themes_service (db : ThemeDB) (source_theme_id target_theme_id : Nat) :
    ThemeDB × Except DbError MergeResult :=
  match get_theme_with_articles db source_theme_id with
  | none =>
      (db, .ok { success := false, articles_moved := none, target_theme_id := none,
                 error := some "Source theme not found" })
  | some (_, arts) =>
      match merge_themes_repo db source_theme_id target_theme_id with
      | .ok (db2, _) =>
          (db2, .ok { success := true, articles_moved := some arts.length,
                      target_theme_id := some target_theme_id, error := none })
      | .error e => (db, .error e)

/-! ## Theme world: helper lemmas -/

lemma themeExists_iff {db : ThemeDB} {tid : Nat} :
    themeExists db tid = true ↔ ∃ t ∈ db.themes, t.id = tid := by
  simp [themeExists, List.any_eq_true]

lemma find_theme_eq_none {db : ThemeDB} {tid : Nat} (h : themeExists db tid = false) :
    db.themes.find? (fun t => decide (t.id = tid)) = none := by
  rw [List.find?_eq_none]
  intro t ht
  simp only [themeExists, List.any_eq_false, decide_eq_true_eq] at h
  simpa using h t ht

lemma merge_repo_ok {db : ThemeDB} {A B : Nat}
    (hB : themeExists db B = true) (hAB : A ≠ B) :
    merge_themes_repo db A B =
      .ok ({ themes := db.themes.filter (fun t => decide (t.id ≠ A)),
             articles := db.articles.map (fun a =>
               if a.theme_id = some A then { a with theme_id := some B } else a) },
           (db.articles.filter (fun a => decide (a.theme_id = some A))).length) := by
  have hany : (db.articles.map (fun a =>
      if a.theme_id = some A then { a with theme_id := some B } else a)).any
        (fun a => decide (a.theme_id = some A)) = false := by
    rw [List.any_eq_false]
    intro a ha
    rw [List.mem_map] at ha
    obtain ⟨b, hb, rfl⟩ := ha
    by_cases hbt : b.theme_id = some A
    · simp only [if_pos hbt, decide_eq_true_eq]
      intro hcon
      exact hAB (Option.some.inj hcon).symm
    · simp [if_neg hbt, hbt]
  simp only [merge_themes_repo, hB, Bool.not_true, Bool.and_false, if_neg, hany,
    Bool.and_false]
  simp

lemma map_congr_id {α : Type} {l : List α} {f : α → α} (h : ∀ a ∈ l, f a = a) :
    l.map f = l := by
  induction l with
  | nil => rfl
  | cons x xs ih =>
      simp only [List.map_cons, h x (by simp)]
      rw [ih (fun a ha => h a (by simp [ha]))]

lemma find_theme_eq_some {db : ThemeDB} {tid : Nat} (h : themeExists db tid = true) :
    ∃ tp, db.themes.find? (fun t => decide (t.id = tid)) = some tp := by
  obtain ⟨t0, ht0, ht0id⟩ := themeExists_iff.mp h
  rw [← Option.isSome_iff_exists, List.find?_isSome]
  exact ⟨t0, ht0, by simp [ht0id]⟩

/-! ## Theme world: claims about merge -/

/-- C1: for distinct existing themes A and B, `ContentService.merge_themes`
reassigns every article referencing A to B, deletes theme A (a subsequent
lookup of A yields `none`), and returns success with `articles_moved` equal
to the number of articles referencing A immediately before the call. -/
theorem claim_C1_merge_reassigns_deletes_counts (db : ThemeDB) (A B : Nat)
    (hA : themeExists db A = true) (hB : themeExists db B = true) (hAB : A ≠ B) :
    merge_themes_service db A B =
      ({ themes := db.themes.filter (fun t => decide (t.id ≠ A)),
         articles := db.articles.map (fun a =>
           if a.theme_id = some A then { a with theme_id := some B } else a) },
       .ok { success := true, articles_moved := some (articlesOf db A).length,
             target_theme_id := some B, error := none })
    ∧ get_theme_by_id (merge_themes_service db A B).1 A = none := by
  obtain ⟨tp, htp⟩ := find_theme_eq_some hA
  have hsvc : merge_themes_service db A B =
      ({ themes := db.themes.filter (fun t => decide (t.id ≠ A)),
         articles := db.articles.map (fun a =>
           if a.theme_id = some A then { a with theme_id := some B } else a) },
       .ok { success := true, articles_moved := some (articlesOf db A).length,
             target_theme_id := some B, error := none }) := by
    simp only [merge_themes_service, get_theme_with_articles, htp, merge_repo_ok hB hAB]
  refine ⟨hsvc, ?_⟩
  rw [hsvc]
  simp only [get_theme_by_id]
  rw [List.find?_eq_none]
  intro t ht
  rw [List.mem_filter] at ht
  simpa using ht.2

/-- Witness for C1 at a concrete database. -/
theorem claim_C1_witness :
    get_theme_by_id
      (merge_themes_service ⟨[⟨1, "a"⟩, ⟨2, "b"⟩], [⟨10, some 1, 0⟩]⟩ 1 2).1 1 = none :=
  (claim_C1_merge_reassigns_deletes_counts ⟨[⟨1, "a"⟩, ⟨2, "b"⟩], [⟨10, some 1, 0⟩]⟩ 1 2
    (by decide) (by decide) (by decide)).2

/-- C7: merge on a nonexistent source id returns success-false with the
not-found error message and mutates nothing. -/
theorem claim_C7_merge_missing_source_no_mutation (db : ThemeDB) (A B : Nat)
    (hA : themeExists db A = false) :
    merge_themes_service db A B =
      (db, .ok { success := false, articles_moved := none, target_theme_id := none,
                 error := some "Source theme not found" }) := by
  simp only [merge_themes_service, get_theme_with_articles, find_theme_eq_none hA]

/-- Witness for C7 at a concrete database. -/
theorem claim_C7_witness :
    merge_themes_service ⟨[⟨2, "b"⟩], [⟨10, some 2, 0⟩]⟩ 7 2 =
      (⟨[⟨2, "b"⟩], [⟨10, some 2, 0⟩]⟩,
       .ok { success := false, articles_moved := none, target_theme_id := none,
             error := some "Source theme not found" }) :=
  claim_C7_merge_missing_source_no_mutation ⟨[⟨2, "b"⟩], [⟨10, some 2, 0⟩]⟩ 7 2 (by decide)

/-- C4 fails as stated: self-merging a theme with no articles is neither a
rejection without mutation nor a no-op — the code deletes the source theme
and reports success, so the final state differs from the initial one. -/
theorem claim_C4_counterexample :
    merge_themes_service ⟨[⟨1, "T"⟩], []⟩ 1 1 =
      (⟨[], []⟩, .ok { success := true, articles_moved := some 0,
                       target_theme_id := some 1, error := none })
    ∧ (merge_themes_service ⟨[⟨1, "T"⟩], []⟩ 1 1).1 ≠ (⟨[⟨1, "T"⟩], []⟩ : ThemeDB) := by
  constructor
  · rfl
  · decide

/-- C4 (amended): the code has no self-merge protection; merge(A, A) on an
existing theme A behaves as follows: when at least one article references A
the storage layer rejects the deletion of the still-referenced row, the
transaction rolls back (no mutation) and the failure propagates — so A is
never deleted while articles reference it; when no article references A the
call deletes theme A, leaves the articles unchanged and returns success with
`articles_moved = 0`. -/
theorem claim_C4_amended_self_merge (db : ThemeDB) (A : Nat)
    (hA : themeExists db A = true) :
    (db.articles.any (fun a => decide (a.theme_id = some A)) = true →
      merge_themes_service db A A = (db, .error .fkViolation))
    ∧ (db.articles.all (fun a => decide (a.theme_id ≠ some A)) = true →
      merge_themes_service db A A =
        ({ themes := db.themes.filter (fun t => decide (t.id ≠ A)),
           articles := db.articles },
         .ok { success := true, articles_moved := some 0, target_theme_id := some A,
               error := none })) := by
  obtain ⟨tp, htp⟩ := find_theme_eq_some hA
  constructor
  · intro hany
    have hrepo : merge_themes_repo db A A = .error .fkViolation := by
      obtain ⟨a0, ha0, ha0t⟩ := by simpa [List.any_eq_true] using hany
      have hany2 : (db.articles.map (fun a =>
          if a.theme_id = some A then { a with theme_id := some A } else a)).any
            (fun a => decide (a.theme_id = some A)) = true := by
        rw [List.any_eq_true]
        refine ⟨_, List.mem_map_of_mem _ ha0, ?_⟩
        simp [if_pos ha0t]
      simp [merge_themes_repo, hA, hany2]
    simp only [merge_themes_service, get_theme_with_articles, htp, hrepo]
  · intro hall
    have hnone : ∀ a ∈ db.articles, ¬ a.theme_id = some A := by
      intro a ha
      simpa using (List.all_eq_true.mp hall) a ha
    have hfilter : db.articles.filter (fun a => decide (a.theme_id = some A)) = [] := by
      rw [List.filter_eq_nil_iff]
      intro a ha
      simpa using hnone a ha
    have hmap : db.articles.map (fun a =>
        if a.theme_id = some A then { a with theme_id := some A } else a) = db.articles :=
      map_congr_id (fun a ha => if_neg (hnone a ha))
    have hrepo : merge_themes_repo db A A =
        .ok ({ themes := db.themes.filter (fun t => decide (t.id ≠ A)),
               articles := db.articles }, 0) := by
      have hany2 : (db.articles.map (fun a =>
          if a.theme_id = some A then { a with theme_id := some A } else a)).any
            (fun a => decide (a.theme_id = some A)) = false := by
        rw [hmap, List.any_eq_false]
        intro a ha
        simpa using hnone a ha
      simp [merge_themes_repo, hfilter, hmap, hany2, hA]
      exact hnone
    have harts : articlesOf db A = [] := hfilter
    simp only [merge_themes_service, get_theme_with_articles, htp, hrepo, harts,
      List.length_nil]

/-- Witness for the amended C4: a referenced self-merge rolls back with a
storage failure, an unreferenced one deletes the lone theme. -/
theorem claim_C4_witness :
    merge_themes_service ⟨[⟨1, "T"⟩], [⟨10, some 1, 0⟩]⟩ 1 1 =
      (⟨[⟨1, "T"⟩], [⟨10, some 1, 0⟩]⟩, .error .fkViolation) :=
  (claim_C4_amended_self_merge ⟨[⟨1, "T"⟩], [⟨10, some 1, 0⟩]⟩ 1 (by decide)).1 (by decide)

/-- C5: the merge transaction is atomic — whenever the call ends in a
storage-layer error the database state is exactly the pre-call state and the
failure propagates to the caller; in particular a merge whose target theme
does not exist while at least one article must be moved is rejected by the
foreign-key check and rolled back. -/
theorem claim_C5_merge_atomic_rollback (db : ThemeDB) (A B : Nat) :
    (∀ db2 e, merge_themes_service db A B = (db2, .error e) → db2 = db)
    ∧ (themeExists db A = true → themeExists db B = false →
       db.articles.any (fun a => decide (a.theme_id = some A)) = true →
       merge_themes_service db A B = (db, .error .fkViolation)) := by
  constructor
  · intro db2 e h
    unfold merge_themes_service at h
    cases hg : get_theme_with_articles db A with
    | none =>
        rw [hg] at h
        simp at h
    | some pr =>
        obtain ⟨t, arts⟩ := pr
        rw [hg] at h
        cases hr : merge_themes_repo db A B with
        | ok p =>
            obtain ⟨dbn, n⟩ := p
            rw [hr] at h
            simp at h
        | error e2 =>
            rw [hr] at h
            simp only [Prod.mk.injEq] at h
            exact h.1.symm
  · intro hA hB hany
    obtain ⟨tp, htp⟩ := find_theme_eq_some hA
    have hmoved : 0 < (db.articles.filter (fun a => decide (a.theme_id = some A))).length := by
      obtain ⟨a0, ha0, ha0t⟩ := by simpa [List.any_eq_true] using hany
      refine List.length_pos.mpr ?_
      intro hnil
      have : a0 ∈ db.articles.filter (fun a => decide (a.theme_id = some A)) := by
        rw [List.mem_filter]
        exact ⟨ha0, by simpa using ha0t⟩
      rw [hnil] at this
      simp at this
    have hrepo : merge_themes_repo db A B = .error .fkViolation := by
      simp [merge_themes_repo, hB, hmoved]
    simp only [merge_themes_service, get_theme_with_articles, htp, hrepo]

/-- Witness for C5: moving an article to a missing target theme fails and
leaves the database untouched. -/
theorem claim_C5_witness :
    merge_themes_service ⟨[⟨1, "a"⟩], [⟨10, some 1, 0⟩]⟩ 1 2 =
      (⟨[⟨1, "a"⟩], [⟨10, some 1, 0⟩]⟩, .error .fkViolation) :=
  (claim_C5_merge_atomic_rollback ⟨[⟨1, "a"⟩], [⟨10, some 1, 0⟩]⟩ 1 2).2
    (by decide) (by decide) (by decide)

/-! ## Theme world: similarity finder

`ThemeRepository.find_similar_themes` filters themes with the SQL pattern
`ILIKE '%' || first_token || '%'`, so the first whitespace token of the name
is interpolated into a PostgreSQL LIKE pattern, where `%` matches any
character sequence, `_` matches any single character, a backslash (the
default escape character, no ESCAPE clause appears in the query) makes the
following pattern character match literally, and every other character
matches case-insensitively. -/

/-- One pattern character against one subject character: `_` matches any
character, anything else matches up to case. -/
def charMatch (p c : Char) : Bool := p == '_' || p.toLower == c.toLower

/-- PostgreSQL LIKE / ILIKE matching of a pattern against a subject string,
both as character lists: `%` consumes any (possibly empty) subject segment,
which is expressed by trying every suffix of the subject; the default escape
character `\` strips the following pattern character of any special meaning,
so it matches literally (up to case).  A pattern ending in a bare escape
character matches nothing (PostgreSQL rejects such patterns with an error;
the pattern built by the repository always ends in `%`, so this case is
unreachable there). -/
def likeMatch : List Char → List Char → Bool
  | [], s => s.isEmpty
  | p1 :: ps, s =>
      if p1 = '%' then s.tails.any (fun t => likeMatch ps t)
      else if p1 = '\\' then
        match ps, s with
        | [], _ => false
        | _ :: _, [] => false
        | p2 :: ps2, c :: s2 => (p2.toLower == c.toLower) && likeMatch ps2 s2
      else
        match s with
        | [] => false
        | c :: s2 => charMatch p1 c && likeMatch ps s2

/-- The `ilike` operator applied by the repository's query filter. -/
def ilike (s pat : String) : Bool := likeMatch pat.toList s.toList

/-- Runs of characters between whitespace separators. -/
def splitWS : List Char → List (List Char)
  | [] => [[]]
  | c :: cs => if c.isWhitespace then [] :: splitWS cs else (splitWS cs).modifyHead (List.cons c)

/-- Python `str.split()` with no argument: the maximal whitespace-free runs,
empty pieces dropped. -/
def pySplit (s : String) : List String :=
  ((splitWS s.toList).filter (fun w => !w.isEmpty)).map String.mk

/-- `ThemeRepository.find_similar_themes`: empty-token names return `[]`;
otherwise filter themes whose name matches `%first_token%` (ILIKE), drop the
excluded id when one is given, and take the first `limit` rows. -/
def find_similar_themes (db : ThemeDB) (theme_name : String) (exclude_id : Option Nat)
    (limit : Nat) : List Theme :=
  match pySplit theme_name with
  | [] => []
  | w :: _ =>
      let q1 : List Theme := db.themes.filter (fun t => ilike t.name ("%" ++ w ++ "%"))
      let q2 : List Theme := match exclude_id with
        | some e => q1.filter (fun t => decide (t.id ≠ e))
        | none => q1
      q2.take limit

/-- Case-insensitive substring test, the containment notion of the claim:
the lowercased token occurs inside the lowercased haystack. -/
def containsCI (hay tok : String) : Bool :=
  (hay.toList.map Char.toLower).tails.any
    (fun t => (tok.toList.map Char.toLower).isPrefixOf t)

lemma likeMatch_pct {ps s : List Char} :
    likeMatch ('%' :: ps) s = s.tails.any (fun t => likeMatch ps t) := by
  rw [likeMatch.eq_def]
  simp

lemma likeMatch_lit_cons {p1 c : Char} {ps s2 : List Char} (h : p1 ≠ '%')
    (hb : p1 ≠ '\\') :
    likeMatch (p1 :: ps) (c :: s2) = (charMatch p1 c && likeMatch ps s2) := by
  rw [likeMatch.eq_def]
  simp [if_neg h, if_neg hb]

lemma likeMatch_lit_nil {p1 : Char} {ps : List Char} (h : p1 ≠ '%') (hb : p1 ≠ '\\') :
    likeMatch (p1 :: ps) [] = false := by
  rw [likeMatch.eq_def]
  simp [if_neg h, if_neg hb]

lemma likeMatch_pct_iff {ps s : List Char} :
    likeMatch ('%' :: ps) s = true ↔ ∃ t, t <:+ s ∧ likeMatch ps t = true := by
  rw [likeMatch_pct]
  simp only [List.any_eq_true, List.mem_tails]

lemma likeMatch_lit_pct {w : List Char} (hw : ∀ c ∈ w, c ≠ '%' ∧ c ≠ '_' ∧ c ≠ '\\') :
    ∀ s : List Char, (likeMatch (w ++ ['%']) s = true ↔
      (w.map Char.toLower) <+: (s.map Char.toLower)) := by
  induction w with
  | nil =>
      intro s
      simp only [List.nil_append, List.map_nil]
      constructor
      · intro _
        exact List.nil_prefix
      · intro _
        rw [likeMatch_pct_iff]
        exact ⟨[], ⟨s, by simp⟩, rfl⟩
  | cons a w2 ih =>
      intro s
      obtain ⟨ha1, ha2, ha3⟩ := hw a (by simp)
      cases s with
      | nil =>
          rw [List.cons_append, likeMatch_lit_nil ha1 ha3]
          simp
      | cons c s2 =>
          have ihs := ih (fun x hx => hw x (by simp [hx])) s2
          rw [List.cons_append, likeMatch_lit_cons ha1 ha3]
          simp only [List.map_cons, List.cons_prefix_cons, charMatch, Bool.and_eq_true,
            Bool.or_eq_true, beq_iff_eq]
          rw [ihs]
          constructor
          · rintro ⟨h1 | h1, h2⟩
            · exact absurd h1 ha2
            · exact ⟨h1, h2⟩
          · rintro ⟨h1, h2⟩
            exact ⟨Or.inr h1, h2⟩

/-- A match against the `%token%` pattern with a token free of wildcards and
of the escape character is exactly case-insensitive substring containment. -/
lemma ilike_pattern_substring {name w : String}
    (hw : ∀ c ∈ w.toList, c ≠ '%' ∧ c ≠ '_' ∧ c ≠ '\\')
    (h : ilike name ("%" ++ w ++ "%") = true) : containsCI name w = true := by
  have hp : ("%" ++ w ++ "%").toList = '%' :: (w.toList ++ ['%']) := by
    show ("%" ++ w ++ "%").data = '%' :: (w.data ++ ['%'])
    rw [String.data_append, String.data_append]
    rfl
  unfold ilike at h
  rw [hp, likeMatch_pct_iff] at h
  obtain ⟨t, hts, ht⟩ := h
  rw [likeMatch_lit_pct hw] at ht
  unfold containsCI
  rw [List.any_eq_true]
  refine ⟨t.map Char.toLower, ?_, ?_⟩
  · rw [List.mem_tails]
    exact hts.map Char.toLower
  · rw [List.isPrefixOf_iff_prefix]
    exact ht

/-- C8 fails as stated: the first token is interpolated into a LIKE pattern,
so a token containing the `_` wildcard matches names that do not contain it;
the name "abc" is returned for the query token "a_c" although "abc" does not
contain "a_c". -/
theorem claim_C8_counterexample :
    find_similar_themes ⟨[⟨1, "abc"⟩], []⟩ "a_c" none 5 = [⟨1, "abc"⟩]
    ∧ containsCI "abc" "a_c" = false := by
  constructor
  · decide
  · decide

/-- C8 (amended): `find_similar_themes` returns at most `limit` rows, never
the excluded theme id, and the empty list when the name has no whitespace
tokens; every returned theme's name matches the ILIKE pattern built from the
first token, which coincides with case-insensitive containment of that token
whenever the token is free of the LIKE wildcards `%` and `_` and of the
default escape character `\` (a token containing one of these is matched as
a pattern instead). -/
theorem claim_C8_amended_find_similar (db : ThemeDB) (theme_name : String)
    (exclude_id : Option Nat) (limit : Nat) :
    (find_similar_themes db theme_name exclude_id limit).length ≤ limit
    ∧ (∀ e, exclude_id = some e →
        ∀ t ∈ find_similar_themes db theme_name exclude_id limit, t.id ≠ e)
    ∧ (pySplit theme_name = [] → find_similar_themes db theme_name exclude_id limit = [])
    ∧ (∀ w ws, pySplit theme_name = w :: ws →
        ∀ t ∈ find_similar_themes db theme_name exclude_id limit,
          ilike t.name ("%" ++ w ++ "%") = true
          ∧ ((∀ c ∈ w.toList, c ≠ '%' ∧ c ≠ '_' ∧ c ≠ '\\') →
              containsCI t.name w = true)) := by
  refine ⟨?_, ?_, ?_, ?_⟩
  · unfold find_similar_themes
    cases hsp : pySplit theme_name with
    | nil => simp
    | cons w ws =>
        simp only
        cases exclude_id with
        | none => exact List.length_take_le limit _
        | some e => exact List.length_take_le limit _
  · intro e he t ht
    subst he
    unfold find_similar_themes at ht
    cases hsp : pySplit theme_name with
    | nil =>
        rw [hsp] at ht
        simp at ht
    | cons w ws =>
        rw [hsp] at ht
        simp only at ht
        have ht2 := List.take_subset _ _ ht
        rw [List.mem_filter] at ht2
        simpa using ht2.2
  · intro hsp
    unfold find_similar_themes
    rw [hsp]
  · intro w ws hsp t ht
    unfold find_similar_themes at ht
    rw [hsp] at ht
    simp only at ht
    have hmem : t ∈ db.themes.filter (fun t => ilike t.name ("%" ++ w ++ "%")) := by
      cases exclude_id with
      | none => exact List.take_subset _ _ ht
      | some e =>
          have := List.take_subset _ _ ht
          exact (List.mem_filter.mp this).1
    have hil : ilike t.name ("%" ++ w ++ "%") = true := (List.mem_filter.mp hmem).2
    exact ⟨hil, fun hw => ilike_pattern_substring hw hil⟩

/-- Witness for the amended C8 at a concrete database. -/
theorem claim_C8_witness :
    containsCI "Climate Week" "Climate" = true :=
  (((claim_C8_amended_find_similar ⟨[⟨1, "Climate Week"⟩, ⟨2, "Other"⟩], []⟩
      "Climate Change Policy" (some 2) 5).2.2.2 "Climate" ["Change", "Policy"] (by decide)
      ⟨1, "Climate Week"⟩ (by decide)).2 (by decide))

/-! ## Quiz world: data model

The quiz tables: `learning_items` carries the lifecycle tag (`purpose`), an
`MCQ` row references its learning item, `item_relations` links an article's
learning item to a question's learning item, and `news_articles` carries the
publication date.  Column payloads (ids, dates, JSON blobs, …) are modelled
by one opaque value type `Val`, since the workflows only ever compare them.

Modelled from the spec: the ORM class `LearningItem` is imported by the
repositories but not declared in the repository sources; its shape (identity
plus the free-text lifecycle tag) is taken from the spec's data model and
the two columns the repository code touches. -/

/-- An opaque column value: none/NULL, a number, a string, a boolean or a
JSON payload. -/
inductive Val where
  | vnone
  | vnat (n : Nat)
  | vstr (s : String)
  | vbool (b : Bool)
  | vjson (j : String)
deriving Repr, DecidableEq

/-- A `learning_items` row: identity plus the lifecycle tag. -/
@[ext]
structure LearningItem where
  id : Val
  purpose : Option String
deriving Repr, DecidableEq

/-- An `mcqs` row with the columns the dashboard reads or edits. -/
@[ext]
structure MCQ where
  id : Val
  learning_item_id : Val
  question_text : Val
  options : Val
  correct_option_ids : Val
  is_multi_select : Val
  explanation : Val
  silly_mistake_prone : Val
  question_pattern : Val
  created_at : Val
  updated_at : Val
deriving Repr, DecidableEq

/-- An `item_relations` row linking a source item to a target item. -/
@[ext]
structure ItemRelation where
  source_item_id : Val
  target_item_id : Val
deriving Repr, DecidableEq

/-- A `news_articles` row with the columns the rotator reads. -/
@[ext]
structure NewsArticle where
  learning_item_id : Val
  date : Val
deriving Repr, DecidableEq

/-- The slice of database state the quiz workflows touch. -/
@[ext]
structure QuizDB where
  learning_items : List LearningItem
  mcqs : List MCQ
  item_relations : List ItemRelation
  news_articles : List NewsArticle
deriving Repr, DecidableEq

/-- The "pool" lifecycle tag. -/
def poolTag : String := "article-generated-questions"

/-- The "selected" lifecycle tag. -/
def selectedTag : String := "daily-selected"

/-- The rotator's reset statement on one row: items tagged "selected" go
back to "pool"; everything else is untouched. -/
def resetFun (li : LearningItem) : LearningItem :=
  if li.purpose = some selectedTag then { li with purpose := some poolTag } else li

/-- The reset UPDATE: every currently "selected" item back to "pool". -/
def resetItems (items : List LearningItem) : List LearningItem :=
  items.map resetFun

/-- The marking statement on one row: items in the given id set that
currently hold the "pool" tag become "selected"; everything else is
untouched. -/
def markFun (ids : List Val) (li : LearningItem) : LearningItem :=
  if li.id ∈ ids ∧ li.purpose = some poolTag then { li with purpose := some selectedTag }
  else li

/-- The marking UPDATE over the whole table. -/
def markItems (ids : List Val) (items : List LearningItem) : List LearningItem :=
  items.map (markFun ids)

/-- Both rotator entry points share this shape on the `learning_items`
table: the reset UPDATE always runs; the marking UPDATE runs only when the
collected id list is nonempty (the source guards it with an emptiness
check — skipping it is equivalent to marking with an empty id set, but the
guard is kept faithfully). -/
def rotateCore (ids : List Val) (items : List LearningItem) : List LearningItem :=
  if ids.isEmpty then resetItems items else markItems ids (resetItems items)

/-- The `selected_li_ids` query of `QuestionRepository.save_daily_selected`:
learning-item ids of the MCQ rows whose id is in the given list.  The source
runs this query before the reset; it reads only the `mcqs` table, which the
reset does not touch. -/
def selectedLiIds (db : QuizDB) (mcq_ids : List Val) : List Val :=
  (db.mcqs.filter (fun m => decide (m.id ∈ mcq_ids))).map MCQ.learning_item_id

/-- `QuestionRepository.save_daily_selected`: reset all "selected" items to
"pool", mark the collected ids that hold the "pool" tag as "selected"
(skipped when no id was collected), and return the number of collected
ids. -/
def save_daily_selected (db : QuizDB) (mcq_ids : List Val) : QuizDB × Nat :=
  ({ db with learning_items := rotateCore (selectedLiIds db mcq_ids) db.learning_items },
   (selectedLiIds db mcq_ids).length)

/-- The `today_li_ids` query of
`TrendingRepository.auto_select_daily_questions`, issued after the reset
UPDATE: the distinct learning-item ids of MCQs whose related article is
dated `target_date` and whose learning item holds the "pool" tag in the
post-reset table. -/
def todayLiIds (db : QuizDB) (target_date : Val) : List Val :=
  ((db.mcqs.filter (fun m => decide (
      (∃ r ∈ db.item_relations, r.target_item_id = m.learning_item_id ∧
        ∃ a ∈ db.news_articles, a.learning_item_id = r.source_item_id ∧
          a.date = target_date) ∧
      ∃ li ∈ resetItems db.learning_items,
        li.id = m.learning_item_id ∧ li.purpose = some poolTag))).map
    MCQ.learning_item_id).dedup

/-- `TrendingRepository.auto_select_daily_questions`: reset all "selected"
items to "pool", collect today's distinct pool-tagged learning-item ids,
mark them as "selected" (skipped when none), and return the number of
collected ids. -/
def auto_select_daily_questions (db : QuizDB) (target_date : Val) : QuizDB × Nat :=
  ({ db with learning_items := rotateCore (todayLiIds db target_date) db.learning_items },
   (todayLiIds db target_date).length)

/-- One invocation of the daily selection rotator: by explicit MCQ id list
(`QuestionRepository.save_daily_selected`) or by date
(`TrendingRepository.auto_select_daily_questions`). -/
inductive RotateOp where
  | byIds (mcq_ids : List Val)
  | byDate (target_date : Val)
deriving Repr, DecidableEq

/-- Dispatch one rotator invocation. -/
def rotate_daily_selection (db : QuizDB) : RotateOp → QuizDB × Nat
  | .byIds ids => save_daily_selected db ids
  | .byDate d => auto_select_daily_questions db d

/-- A sequence of rotator invocations, earliest first. -/
def applyRotations (db : QuizDB) (ops : List RotateOp) : QuizDB :=
  ops.foldl (fun d op => (rotate_daily_selection d op).1) db

/-- Number of items currently holding the "selected" tag.  Because the reset
step clears every previously "selected" item before marking, the items
"selected" after a rotator call are exactly those the call transitioned. -/
def numSelected (db : QuizDB) : Nat :=
  (db.learning_items.filter (fun li => decide (li.purpose = some selectedTag))).length

/-- Ids of the items currently holding the "selected" tag. -/
def selectedSet (db : QuizDB) : List Val :=
  (db.learning_items.filter (fun li => decide (li.purpose = some selectedTag))).map
    LearningItem.id

/-- The id list a rotator invocation collects. -/
def opIds (db : QuizDB) : RotateOp → List Val
  | .byIds ids => selectedLiIds db ids
  | .byDate d => todayLiIds db d

/-- The per-row effect of one rotator invocation. -/
def coreFun (ids : List Val) (li : LearningItem) : LearningItem :=
  if ids.isEmpty then resetFun li else markFun ids (resetFun li)

/-! ## Quiz world: helper lemmas -/

lemma rotate_eq (db : QuizDB) (op : RotateOp) :
    rotate_daily_selection db op =
      ({ db with learning_items := rotateCore (opIds db op) db.learning_items },
       (opIds db op).length) := by
  cases op <;> rfl

lemma rotateCore_eq_map (ids : List Val) (items : List LearningItem) :
    rotateCore ids items = items.map (coreFun ids) := by
  unfold rotateCore coreFun
  by_cases h : ids.isEmpty
  · simp [h, resetItems]
  · simp only [h, if_false, Bool.false_eq_true, resetItems, markItems, List.map_map]
    rfl

lemma resetFun_other {li : LearningItem} (h : li.purpose ≠ some selectedTag) :
    resetFun li = li := if_neg h

lemma markFun_other {ids : List Val} {li : LearningItem} (h : li.purpose ≠ some poolTag) :
    markFun ids li = li := by
  unfold markFun
  rw [if_neg]
  rintro ⟨_, hp⟩
  exact h hp

lemma coreFun_other {ids : List Val} {li : LearningItem} (h1 : li.purpose ≠ some poolTag)
    (h2 : li.purpose ≠ some selectedTag) : coreFun ids li = li := by
  unfold coreFun
  rw [resetFun_other h2]
  by_cases he : ids.isEmpty
  · rw [if_pos he]
  · rw [if_neg he, markFun_other h1]

lemma rotate_items_map (db : QuizDB) (op : RotateOp) :
    (rotate_daily_selection db op).1.learning_items =
      db.learning_items.map (coreFun (opIds db op)) := by
  rw [rotate_eq]
  exact rotateCore_eq_map _ _

lemma rotate_items_length (db : QuizDB) (op : RotateOp) :
    (rotate_daily_selection db op).1.learning_items.length = db.learning_items.length := by
  rw [rotate_items_map, List.length_map]

/-! ## Quiz world: claims C2 and C9 -/

/-- C2: a rotator invocation (by id list or by date) never touches an item
whose lifecycle tag is neither "pool" nor "selected", across any number of
calls: such an item is bitwise unchanged at its position. -/
theorem claim_C2_rotator_untouched_tags (db : QuizDB) (ops : List RotateOp) :
    (applyRotations db ops).learning_items.length = db.learning_items.length
    ∧ ∀ i (h1 : i < db.learning_items.length)
        (h2 : i < (applyRotations db ops).learning_items.length),
        (db.learning_items.get ⟨i, h1⟩).purpose ≠ some poolTag →
        (db.learning_items.get ⟨i, h1⟩).purpose ≠ some selectedTag →
        (applyRotations db ops).learning_items.get ⟨i, h2⟩ = db.learning_items.get ⟨i, h1⟩ := by
  induction ops generalizing db with
  | nil => exact ⟨rfl, fun i h1 h2 _ _ => rfl⟩
  | cons op ops ih =>
      have hs := rotate_items_map db op
      have ihr := ih (rotate_daily_selection db op).1
      constructor
      · show (applyRotations (rotate_daily_selection db op).1 ops).learning_items.length =
          db.learning_items.length
        rw [ihr.1, hs, List.length_map]
      · intro i h1 h2 hp hsel
        have h1' : i < (rotate_daily_selection db op).1.learning_items.length := by
          rw [hs, List.length_map]
          exact h1
        have hmid : (rotate_daily_selection db op).1.learning_items.get ⟨i, h1'⟩ =
            db.learning_items.get ⟨i, h1⟩ := by
          simp only [List.get_eq_getElem] at hp hsel ⊢
          simp only [hs, List.getElem_map]
          exact coreFun_other hp hsel
        have hrest := ihr.2 i h1' h2 (by rw [hmid]; exact hp) (by rw [hmid]; exact hsel)
        exact hrest.trans hmid

/-- Witness for C2: a "daily-challenges"-tagged item survives a by-date call
followed by a by-id call unchanged. -/
theorem claim_C2_witness :
    (applyRotations ⟨[⟨.vnat 10, some "daily-challenges"⟩], [], [], []⟩
        [.byDate (.vnat 5), .byIds [.vnat 1]]).learning_items.getD 0 ⟨.vnone, none⟩ =
      ⟨.vnat 10, some "daily-challenges"⟩ := by
  have hC := claim_C2_rotator_untouched_tags
    ⟨[⟨.vnat 10, some "daily-challenges"⟩], [], [], []⟩ [.byDate (.vnat 5), .byIds [.vnat 1]]
  have hlt : 0 < (applyRotations ⟨[⟨.vnat 10, some "daily-challenges"⟩], [], [], []⟩
      [.byDate (.vnat 5), .byIds [.vnat 1]]).learning_items.length := by
    rw [hC.1]
    decide
  have hg := hC.2 0 (by decide) hlt (by decide) (by decide)
  rw [List.getD_eq_getElem _ _ hlt]
  simp only [List.get_eq_getElem] at hg
  rw [hg]
  rfl

/-- C9: the reset step is unconditional — after any single rotator call
(including one that selects nothing), an item that was "selected" before the
call and is not "selected" after it holds the "pool" tag. -/
theorem claim_C9_reset_unconditional (db : QuizDB) (op : RotateOp) :
    (rotate_daily_selection db op).1.learning_items.length = db.learning_items.length
    ∧ ∀ i (h1 : i < db.learning_items.length)
        (h2 : i < (rotate_daily_selection db op).1.learning_items.length),
        (db.learning_items.get ⟨i, h1⟩).purpose = some selectedTag →
        ((rotate_daily_selection db op).1.learning_items.get ⟨i, h2⟩).purpose ≠
            some selectedTag →
        ((rotate_daily_selection db op).1.learning_items.get ⟨i, h2⟩).purpose =
          some poolTag := by
  refine ⟨rotate_items_length db op, ?_⟩
  intro i h1 h2 hsel hafter
  have hs := rotate_items_map db op
  simp only [List.get_eq_getElem] at hsel hafter ⊢
  simp only [hs, List.getElem_map] at hafter ⊢
  unfold coreFun at hafter ⊢
  have hreset : resetFun (db.learning_items[i]) =
      { db.learning_items[i] with purpose := some poolTag } := if_pos hsel
  rw [hreset] at hafter ⊢
  by_cases he : (opIds db op).isEmpty
  · rw [if_pos he]
  · rw [if_neg he] at hafter ⊢
    unfold markFun at hafter ⊢
    by_cases hm : ({ db.learning_items[i] with purpose := some poolTag} : LearningItem).id
        ∈ opIds db op ∧
        ({ db.learning_items[i] with purpose := some poolTag} : LearningItem).purpose =
          some poolTag
    · rw [if_pos hm] at hafter
      exact absurd rfl hafter
    · rw [if_neg hm]

/-- Witness for C9: a previously selected item is reset to "pool" by a
by-id call that selects nothing. -/
theorem claim_C9_witness :
    ((rotate_daily_selection ⟨[⟨.vnat 10, some "daily-selected"⟩], [], [], []⟩
        (.byIds [])).1.learning_items.get ⟨0, by decide⟩).purpose =
      some "article-generated-questions" :=
  (claim_C9_reset_unconditional ⟨[⟨.vnat 10, some "daily-selected"⟩], [], [], []⟩
    (.byIds [])).2 0 (by decide) (by decide) (by decide) (by decide)

/-! ## Quiz world: claim C6 (idempotence) -/

lemma pool_ne_selected : poolTag ≠ selectedTag := by decide

lemma purpose_update_self {li : LearningItem} {p : Option String} (h : li.purpose = p) :
    ({ li with purpose := p } : LearningItem) = li := by
  cases li
  simp_all

lemma resetFun_idem (li : LearningItem) : resetFun (resetFun li) = resetFun li := by
  by_cases h : li.purpose = some selectedTag
  · have h1 : resetFun li = { li with purpose := some poolTag } := if_pos h
    rw [h1, resetFun_other]
    simp [pool_ne_selected]
  · rw [resetFun_other h, resetFun_other h]

lemma resetFun_markFun (L : List Val) (li : LearningItem) :
    resetFun (markFun L (resetFun li)) = resetFun li := by
  by_cases h : li.purpose = some selectedTag
  · have h1 : resetFun li = { li with purpose := some poolTag } := if_pos h
    rw [h1]
    by_cases hm : ({ li with purpose := some poolTag } : LearningItem).id ∈ L
    · have h2 : markFun L { li with purpose := some poolTag } =
          { li with purpose := some selectedTag } := by
        unfold markFun
        rw [if_pos ⟨hm, rfl⟩]
      have h3 : resetFun { li with purpose := some selectedTag } =
          { li with purpose := some poolTag } := if_pos rfl
      rw [h2, h3]
    · have h2 : markFun L { li with purpose := some poolTag } =
          { li with purpose := some poolTag } := by
        unfold markFun
        rw [if_neg]
        rintro ⟨hc, _⟩
        exact hm hc
      rw [h2, resetFun_other]
      simp [pool_ne_selected]
  · rw [resetFun_other h]
    by_cases hp : li.purpose = some poolTag
    · by_cases hm : li.id ∈ L
      · have h2 : markFun L li = { li with purpose := some selectedTag } := by
          unfold markFun
          rw [if_pos ⟨hm, hp⟩]
        have h3 : resetFun { li with purpose := some selectedTag } =
            { li with purpose := some poolTag } := if_pos rfl
        rw [h2, h3, purpose_update_self hp]
      · have h2 : markFun L li = li := by
          unfold markFun
          rw [if_neg]
          rintro ⟨hc, _⟩
          exact hm hc
        rw [h2, resetFun_other h]
    · rw [markFun_other hp, resetFun_other h]

lemma resetItems_rotateCore (L : List Val) (items : List LearningItem) :
    resetItems (rotateCore L items) = resetItems items := by
  rw [rotateCore_eq_map]
  unfold resetItems
  rw [List.map_map]
  have hfe : resetFun ∘ coreFun L = resetFun := by
    funext li
    show resetFun (coreFun L li) = resetFun li
    unfold coreFun
    by_cases he : L.isEmpty
    · rw [if_pos he, resetFun_idem]
    · rw [if_neg he, resetFun_markFun]
  rw [hfe]

lemma rotateCore_idem (L : List Val) (items : List LearningItem) :
    rotateCore L (rotateCore L items) = rotateCore L items := by
  show (if L.isEmpty then resetItems (rotateCore L items)
        else markItems L (resetItems (rotateCore L items))) = rotateCore L items
  rw [resetItems_rotateCore]
  rfl

lemma todayLiIds_congr {db db2 : QuizDB} (d : Val)
    (hm : db2.mcqs = db.mcqs) (hr : db2.item_relations = db.item_relations)
    (ha : db2.news_articles = db.news_articles)
    (hl : resetItems db2.learning_items = resetItems db.learning_items) :
    todayLiIds db2 d = todayLiIds db d := by
  unfold todayLiIds
  rw [hm, hr, ha, hl]

/-- C6: the daily selection rotator is idempotent — repeating a call with
the same input (same id list or same date) from the state it produced gives
exactly the same state and count again, so in particular the final set of
"selected" items is the same. -/
theorem claim_C6_rotator_idempotent (db : QuizDB) (op : RotateOp) :
    rotate_daily_selection (rotate_daily_selection db op).1 op = rotate_daily_selection db op
    ∧ selectedSet (rotate_daily_selection (rotate_daily_selection db op).1 op).1 =
      selectedSet (rotate_daily_selection db op).1 := by
  have hmain : rotate_daily_selection (rotate_daily_selection db op).1 op =
      rotate_daily_selection db op := by
    cases op with
    | byIds ids =>
        show save_daily_selected (save_daily_selected db ids).1 ids =
          save_daily_selected db ids
        have hS : selectedLiIds
            { db with learning_items := rotateCore (selectedLiIds db ids) db.learning_items }
            ids = selectedLiIds db ids := rfl
        unfold save_daily_selected
        dsimp only
        rw [hS, rotateCore_idem]
    | byDate d =>
        show auto_select_daily_questions (auto_select_daily_questions db d).1 d =
          auto_select_daily_questions db d
        have hT : todayLiIds
            { db with learning_items := rotateCore (todayLiIds db d) db.learning_items }
            d = todayLiIds db d :=
          todayLiIds_congr d rfl rfl rfl
            (resetItems_rotateCore (todayLiIds db d) db.learning_items)
        unfold auto_select_daily_questions
        dsimp only
        rw [hT, rotateCore_idem]
  exact ⟨hmain, congrArg (fun p => selectedSet p.1) hmain⟩

/-! ## Quiz world: claim C3 (returned counts) -/

lemma resetFun_id_eq (li : LearningItem) : (resetFun li).id = li.id := by
  unfold resetFun
  split <;> rfl

lemma resetItems_map_id (items : List LearningItem) :
    (resetItems items).map LearningItem.id = items.map LearningItem.id := by
  unfold resetItems
  rw [List.map_map]
  have hfe : (LearningItem.id ∘ resetFun) = LearningItem.id := funext fun li => resetFun_id_eq li
  rw [hfe]

lemma resetItems_not_selected {items : List LearningItem} {li : LearningItem}
    (h : li ∈ resetItems items) : li.purpose ≠ some selectedTag := by
  unfold resetItems at h
  rw [List.mem_map] at h
  obtain ⟨x, hx, rfl⟩ := h
  unfold resetFun
  by_cases hp : x.purpose = some selectedTag
  · rw [if_pos hp]
    simp [pool_ne_selected]
  · rw [if_neg hp]
    exact hp

lemma numSelected_markItems {items : List LearningItem} {L : List Val}
    (hns : ∀ li ∈ items, li.purpose ≠ some selectedTag) :
    ((markItems L items).filter (fun li => decide (li.purpose = some selectedTag))).length =
      items.countP (fun li => decide (li.id ∈ L ∧ li.purpose = some poolTag)) := by
  rw [← List.countP_eq_length_filter]
  unfold markItems
  rw [List.countP_map]
  apply List.countP_congr
  intro li hli
  simp only [Function.comp_apply, decide_eq_true_eq]
  unfold markFun
  by_cases hc : li.id ∈ L ∧ li.purpose = some poolTag
  · rw [if_pos hc]
    simp [hc]
  · rw [if_neg hc]
    simp [hc, hns li hli]

lemma nodup_filter_count {items : List LearningItem} {L : List Val}
    (hnd : (items.map LearningItem.id).Nodup) (hL : L.Nodup)
    (hex : ∀ x ∈ L, ∃ li ∈ items, li.id = x ∧ li.purpose = some poolTag) :
    items.countP (fun li => decide (li.id ∈ L ∧ li.purpose = some poolTag)) = L.length := by
  rw [List.countP_eq_length_filter]
  have hsub : (items.filter
      (fun li => decide (li.id ∈ L ∧ li.purpose = some poolTag))).Sublist items :=
    List.filter_sublist _
  have hndM : ((items.filter
      (fun li => decide (li.id ∈ L ∧ li.purpose = some poolTag))).map
        LearningItem.id).Nodup :=
    List.Nodup.sublist (hsub.map LearningItem.id) hnd
  have hmemiff : ∀ x, x ∈ (items.filter
      (fun li => decide (li.id ∈ L ∧ li.purpose = some poolTag))).map LearningItem.id ↔
      x ∈ L := by
    intro x
    constructor
    · intro hx
      rw [List.mem_map] at hx
      obtain ⟨li, hliF, rfl⟩ := hx
      rw [List.mem_filter] at hliF
      have h2 := hliF.2
      simp only [decide_eq_true_eq] at h2
      exact h2.1
    · intro hx
      obtain ⟨li, hli, hid, hpool⟩ := hex x hx
      rw [List.mem_map]
      refine ⟨li, ?_, hid⟩
      rw [List.mem_filter]
      refine ⟨hli, ?_⟩
      simp only [decide_eq_true_eq]
      exact ⟨by rw [hid]; exact hx, hpool⟩
  have hperm : ((items.filter
      (fun li => decide (li.id ∈ L ∧ li.purpose = some poolTag))).map
        LearningItem.id).Perm L := by
    rw [List.perm_ext_iff_of_nodup hndM hL]
    exact hmemiff
  calc (items.filter (fun li => decide (li.id ∈ L ∧ li.purpose = some poolTag))).length
      = ((items.filter (fun li => decide (li.id ∈ L ∧ li.purpose = some poolTag))).map
          LearningItem.id).length := (List.length_map _ _).symm
    _ = L.length := hperm.length_eq

lemma nodup_filter_count_le {items : List LearningItem} {L : List Val}
    (hnd : (items.map LearningItem.id).Nodup) :
    items.countP (fun li => decide (li.id ∈ L ∧ li.purpose = some poolTag)) ≤ L.length := by
  rw [List.countP_eq_length_filter]
  have hsub : (items.filter
      (fun li => decide (li.id ∈ L ∧ li.purpose = some poolTag))).Sublist items :=
    List.filter_sublist _
  have hndM : ((items.filter
      (fun li => decide (li.id ∈ L ∧ li.purpose = some poolTag))).map
        LearningItem.id).Nodup :=
    List.Nodup.sublist (hsub.map LearningItem.id) hnd
  have hsubL : (items.filter
      (fun li => decide (li.id ∈ L ∧ li.purpose = some poolTag))).map LearningItem.id ⊆ L := by
    intro x hx
    rw [List.mem_map] at hx
    obtain ⟨li, hliF, rfl⟩ := hx
    rw [List.mem_filter] at hliF
    have h2 := hliF.2
    simp only [decide_eq_true_eq] at h2
    exact h2.1
  calc (items.filter (fun li => decide (li.id ∈ L ∧ li.purpose = some poolTag))).length
      = ((items.filter (fun li => decide (li.id ∈ L ∧ li.purpose = some poolTag))).map
          LearningItem.id).length := (List.length_map _ _).symm
    _ ≤ L.length := (hndM.subperm hsubL).length_le

/-- C3 fails as stated: the by-id path returns the number of learning-item
references found for the named MCQs, not the number transitioned.  Naming
one MCQ whose learning item holds a "daily-challenges" tag returns 1 while
zero items are transitioned (nothing is "selected" afterwards). -/
theorem claim_C3_counterexample :
    (save_daily_selected
        ⟨[⟨.vnat 10, some "daily-challenges"⟩],
         [⟨.vnat 1, .vnat 10, .vnone, .vnone, .vnone, .vnone, .vnone, .vnone, .vnone,
           .vnone, .vnone⟩], [], []⟩ [.vnat 1]).2 = 1
    ∧ numSelected (save_daily_selected
        ⟨[⟨.vnat 10, some "daily-challenges"⟩],
         [⟨.vnat 1, .vnat 10, .vnone, .vnone, .vnone, .vnone, .vnone, .vnone, .vnone,
           .vnone, .vnone⟩], [], []⟩ [.vnat 1]).1 = 0 := by
  constructor
  · decide
  · decide

/-- C3 (amended): assuming distinct learning-item ids (the primary key), the
by-date path returns exactly the number of items it transitioned to
"selected" (the number of items "selected" after the call); the by-id path
returns the number of learning-item references of the MCQs it found, which
is an upper bound on — and can exceed — the number transitioned. -/
theorem claim_C3_amended_rotator_counts (db : QuizDB)
    (hnd : (db.learning_items.map LearningItem.id).Nodup) :
    (∀ d, (auto_select_daily_questions db d).2 =
        numSelected (auto_select_daily_questions db d).1)
    ∧ (∀ mcq_ids, (save_daily_selected db mcq_ids).2 = (selectedLiIds db mcq_ids).length
        ∧ numSelected (save_daily_selected db mcq_ids).1 ≤
          (save_daily_selected db mcq_ids).2) := by
  have hnd1 : ((resetItems db.learning_items).map LearningItem.id).Nodup := by
    rw [resetItems_map_id]
    exact hnd
  constructor
  · intro d
    show (todayLiIds db d).length = numSelected (auto_select_daily_questions db d).1
    have hitems : (auto_select_daily_questions db d).1.learning_items =
        rotateCore (todayLiIds db d) db.learning_items := rfl
    unfold numSelected
    rw [hitems]
    unfold rotateCore
    by_cases he : (todayLiIds db d).isEmpty
    · rw [if_pos he]
      have hnil : (resetItems db.learning_items).filter
          (fun li => decide (li.purpose = some selectedTag)) = [] := by
        rw [List.filter_eq_nil_iff]
        intro li hli
        simp only [decide_eq_true_eq]
        exact resetItems_not_selected hli
      rw [hnil, List.isEmpty_iff.mp he]
      rfl
    · rw [if_neg he]
      rw [numSelected_markItems (fun li hli => resetItems_not_selected hli)]
      refine (nodup_filter_count hnd1 (List.nodup_dedup _) ?_).symm
      intro x hx
      unfold todayLiIds at hx
      rw [List.mem_dedup, List.mem_map] at hx
      obtain ⟨m, hm, rfl⟩ := hx
      rw [List.mem_filter] at hm
      have h2 := hm.2
      simp only [decide_eq_true_eq] at h2
      obtain ⟨-, li, hli, hid, hpool⟩ := h2
      exact ⟨li, hli, hid, hpool⟩
  · intro mcq_ids
    refine ⟨rfl, ?_⟩
    show numSelected (save_daily_selected db mcq_ids).1 ≤ (selectedLiIds db mcq_ids).length
    have hitems : (save_daily_selected db mcq_ids).1.learning_items =
        rotateCore (selectedLiIds db mcq_ids) db.learning_items := rfl
    unfold numSelected
    rw [hitems]
    unfold rotateCore
    by_cases he : (selectedLiIds db mcq_ids).isEmpty
    · rw [if_pos he]
      have hnil : (resetItems db.learning_items).filter
          (fun li => decide (li.purpose = some selectedTag)) = [] := by
        rw [List.filter_eq_nil_iff]
        intro li hli
        simp only [decide_eq_true_eq]
        exact resetItems_not_selected hli
      rw [hnil]
      exact Nat.zero_le _
    · rw [if_neg he]
      rw [numSelected_markItems (fun li hli => resetItems_not_selected hli)]
      exact nodup_filter_count_le hnd1

/-- Witness for the amended C3: one pool-tagged item linked to an article on
the target date; the by-date call reports 1, and exactly one item is
"selected" afterwards. -/
theorem claim_C3_witness :
    (auto_select_daily_questions
        ⟨[⟨.vnat 10, some "article-generated-questions"⟩],
         [⟨.vnat 1, .vnat 10, .vnone, .vnone, .vnone, .vnone, .vnone, .vnone, .vnone,
           .vnone, .vnone⟩],
         [⟨.vnat 20, .vnat 10⟩], [⟨.vnat 20, .vnat 7⟩]⟩ (.vnat 7)).2 =
      numSelected (auto_select_daily_questions
        ⟨[⟨.vnat 10, some "article-generated-questions"⟩],
         [⟨.vnat 1, .vnat 10, .vnone, .vnone, .vnone, .vnone, .vnone, .vnone, .vnone,
           .vnone, .vnone⟩],
         [⟨.vnat 20, .vnat 10⟩], [⟨.vnat 20, .vnat 7⟩]⟩ (.vnat 7)).1 :=
  (claim_C3_amended_rotator_counts
    ⟨[⟨.vnat 10, some "article-generated-questions"⟩],
     [⟨.vnat 1, .vnat 10, .vnone, .vnone, .vnone, .vnone, .vnone, .vnone, .vnone,
       .vnone, .vnone⟩],
     [⟨.vnat 20, .vnat 10⟩], [⟨.vnat 20, .vnat 7⟩]⟩ (by decide)).1 (.vnat 7)

/-! ## Quiz world: claim C10 (question editing)

`QuestionRepository.update_question` looks up the first MCQ with the given
id, then for each key/value pair in the updates mapping sets the attribute
of that name when the record has one (`hasattr` guard) and silently skips
the key otherwise, leaving every other row and every unnamed column
untouched. -/

/-- The attribute names of an MCQ record (its mapped columns). -/
def attrNames : List String :=
  ["id", "learning_item_id", "question_text", "options", "correct_option_ids",
   "is_multi_select", "explanation", "silly_mistake_prone", "question_pattern",
   "created_at", "updated_at"]

/-- `setattr(question, key, value)` guarded by `hasattr`: a key naming no
attribute leaves the record unchanged. -/
def setAttr (q : MCQ) (k : String) (v : Val) : MCQ :=
  if k = "id" then { q with id := v }
  else if k = "learning_item_id" then { q with learning_item_id := v }
  else if k = "question_text" then { q with question_text := v }
  else if k = "options" then { q with options := v }
  else if k = "correct_option_ids" then { q with correct_option_ids := v }
  else if k = "is_multi_select" then { q with is_multi_select := v }
  else if k = "explanation" then { q with explanation := v }
  else if k = "silly_mistake_prone" then { q with silly_mistake_prone := v }
  else if k = "question_pattern" then { q with question_pattern := v }
  else if k = "created_at" then { q with created_at := v }
  else if k = "updated_at" then { q with updated_at := v }
  else q

/-- Read an attribute by name; `none` for a name that is no attribute. -/
def getAttr (q : MCQ) (k : String) : Option Val :=
  if k = "id" then some q.id
  else if k = "learning_item_id" then some q.learning_item_id
  else if k = "question_text" then some q.question_text
  else if k = "options" then some q.options
  else if k = "correct_option_ids" then some q.correct_option_ids
  else if k = "is_multi_select" then some q.is_multi_select
  else if k = "explanation" then some q.explanation
  else if k = "silly_mistake_prone" then some q.silly_mistake_prone
  else if k = "question_pattern" then some q.question_pattern
  else if k = "created_at" then some q.created_at
  else if k = "updated_at" then some q.updated_at
  else none

/-- The `for key, value in updates.items()` loop body applied in order. -/
def applyUpdates (q : MCQ) (updates : List (String × Val)) : MCQ :=
  updates.foldl (fun qq kv => setAttr qq kv.1 kv.2) q

/-- In-place ORM mutation of the first row matching the id: the updated row
list together with the returned record (`None` when no row matches). -/
def updateFirst : List MCQ → Val → List (String × Val) → List MCQ × Option MCQ
  | [], _, _ => ([], none)
  | m :: rest, qid, updates =>
      if m.id = qid then
        (applyUpdates m updates :: rest, some (applyUpdates m updates))
      else
        (m :: (updateFirst rest qid updates).1, (updateFirst rest qid updates).2)

/-- `QuestionRepository.update_question` on the database state. -/
def update_question (db : QuizDB) (question_id : Val) (updates : List (String × Val)) :
    QuizDB × Option MCQ :=
  ({ db with mcqs := (updateFirst db.mcqs question_id updates).1 },
   (updateFirst db.mcqs question_id updates).2)

lemma updateFirst_no_match {qid : Val} {updates : List (String × Val)} :
    ∀ {ms : List MCQ}, (∀ m ∈ ms, m.id ≠ qid) → updateFirst ms qid updates = (ms, none) := by
  intro ms
  induction ms with
  | nil => intro _; rfl
  | cons m rest ih =>
      intro h
      have hm : m.id ≠ qid := h m (by simp)
      have hr := ih (fun x hx => h x (by simp [hx]))
      simp only [updateFirst, if_neg hm, hr]

lemma get_congr {α : Type} {l l2 : List α} (h : l = l2) (i : Nat) (hi : i < l.length)
    (hi2 : i < l2.length) : l.get ⟨i, hi⟩ = l2.get ⟨i, hi2⟩ := by
  subst h
  rfl

lemma updateFirst_frame (qid : Val) (updates : List (String × Val)) :
    ∀ ms : List MCQ, (updateFirst ms qid updates).1.length = ms.length
    ∧ ∀ i (h1 : i < ms.length) (h2 : i < (updateFirst ms qid updates).1.length),
        (updateFirst ms qid updates).1.get ⟨i, h2⟩ = ms.get ⟨i, h1⟩
        ∨ ((updateFirst ms qid updates).1.get ⟨i, h2⟩ =
              applyUpdates (ms.get ⟨i, h1⟩) updates
            ∧ (ms.get ⟨i, h1⟩).id = qid) := by
  intro ms
  induction ms with
  | nil =>
      refine ⟨rfl, ?_⟩
      intro i h1
      exact absurd h1 (by simp)
  | cons m rest ih =>
      by_cases hm : m.id = qid
      · have he : updateFirst (m :: rest) qid updates =
            (applyUpdates m updates :: rest, some (applyUpdates m updates)) := by
          simp only [updateFirst, if_pos hm]
        constructor
        · rw [he]
          simp
        · intro i h1 h2
          cases i with
          | zero =>
              right
              exact ⟨get_congr (congrArg Prod.fst he) 0 h2 (by simp), hm⟩
          | succ j =>
              left
              exact get_congr (congrArg Prod.fst he) (j + 1) h2 h1
      · have he : updateFirst (m :: rest) qid updates =
            (m :: (updateFirst rest qid updates).1, (updateFirst rest qid updates).2) := by
          simp only [updateFirst, if_neg hm]
        constructor
        · rw [he]
          simp [ih.1]
        · intro i h1 h2
          cases i with
          | zero =>
              left
              exact get_congr (congrArg Prod.fst he) 0 h2 (by simp)
          | succ j =>
              have hj1 : j < rest.length := by simpa using h1
              have hj2 : j < (updateFirst rest qid updates).1.length := by
                rw [ih.1]
                exact hj1
              have hstep := get_congr (congrArg Prod.fst he) (j + 1) h2
                (Nat.succ_lt_succ hj2)
              rcases ih.2 j hj1 hj2 with h | h
              · left
                exact hstep.trans h
              · right
                exact ⟨hstep.trans h.1, h.2⟩

lemma setAttr_fields (q : MCQ) (k2 : String) (v : Val) :
    (k2 ≠ "id" → (setAttr q k2 v).id = q.id)
    ∧ (k2 ≠ "learning_item_id" → (setAttr q k2 v).learning_item_id = q.learning_item_id)
    ∧ (k2 ≠ "question_text" → (setAttr q k2 v).question_text = q.question_text)
    ∧ (k2 ≠ "options" → (setAttr q k2 v).options = q.options)
    ∧ (k2 ≠ "correct_option_ids" → (setAttr q k2 v).correct_option_ids = q.correct_option_ids)
    ∧ (k2 ≠ "is_multi_select" → (setAttr q k2 v).is_multi_select = q.is_multi_select)
    ∧ (k2 ≠ "explanation" → (setAttr q k2 v).explanation = q.explanation)
    ∧ (k2 ≠ "silly_mistake_prone" →
        (setAttr q k2 v).silly_mistake_prone = q.silly_mistake_prone)
    ∧ (k2 ≠ "question_pattern" → (setAttr q k2 v).question_pattern = q.question_pattern)
    ∧ (k2 ≠ "created_at" → (setAttr q k2 v).created_at = q.created_at)
    ∧ (k2 ≠ "updated_at" → (setAttr q k2 v).updated_at = q.updated_at) := by
  unfold setAttr
  by_cases h1 : k2 = "id"
  · rw [if_pos h1]
    exact ⟨fun hc => absurd h1 hc, fun _ => rfl, fun _ => rfl, fun _ => rfl, fun _ => rfl,
      fun _ => rfl, fun _ => rfl, fun _ => rfl, fun _ => rfl, fun _ => rfl, fun _ => rfl⟩
  · rw [if_neg h1]
    by_cases h2 : k2 = "learning_item_id"
    · rw [if_pos h2]
      exact ⟨fun _ => rfl, fun hc => absurd h2 hc, fun _ => rfl, fun _ => rfl, fun _ => rfl,
        fun _ => rfl, fun _ => rfl, fun _ => rfl, fun _ => rfl, fun _ => rfl, fun _ => rfl⟩
    · rw [if_neg h2]
      by_cases h3 : k2 = "question_text"
      · rw [if_pos h3]
        exact ⟨fun _ => rfl, fun _ => rfl, fun hc => absurd h3 hc, fun _ => rfl,
          fun _ => rfl, fun _ => rfl, fun _ => rfl, fun _ => rfl, fun _ => rfl,
          fun _ => rfl, fun _ => rfl⟩
      · rw [if_neg h3]
        by_cases h4 : k2 = "options"
        · rw [if_pos h4]
          exact ⟨fun _ => rfl, fun _ => rfl, fun _ => rfl, fun hc => absurd h4 hc,
            fun _ => rfl, fun _ => rfl, fun _ => rfl, fun _ => rfl, fun _ => rfl,
            fun _ => rfl, fun _ => rfl⟩
        · rw [if_neg h4]
          by_cases h5 : k2 = "correct_option_ids"
          · rw [if_pos h5]
            exact ⟨fun _ => rfl, fun _ => rfl, fun _ => rfl, fun _ => rfl,
              fun hc => absurd h5 hc, fun _ => rfl, fun _ => rfl, fun _ => rfl,
              fun _ => rfl, fun _ => rfl, fun _ => rfl⟩
          · rw [if_neg h5]
            by_cases h6 : k2 = "is_multi_select"
            · rw [if_pos h6]
              exact ⟨fun _ => rfl, fun _ => rfl, fun _ => rfl, fun _ => rfl, fun _ => rfl,
                fun hc => absurd h6 hc, fun _ => rfl, fun _ => rfl, fun _ => rfl,
                fun _ => rfl, fun _ => rfl⟩
            · rw [if_neg h6]
              by_cases h7 : k2 = "explanation"
              · rw [if_pos h7]
                exact ⟨fun _ => rfl, fun _ => rfl, fun _ => rfl, fun _ => rfl,
                  fun _ => rfl, fun _ => rfl, fun hc => absurd h7 hc, fun _ => rfl,
                  fun _ => rfl, fun _ => rfl, fun _ => rfl⟩
              · rw [if_neg h7]
                by_cases h8 : k2 = "silly_mistake_prone"
                · rw [if_pos h8]
                  exact ⟨fun _ => rfl, fun _ => rfl, fun _ => rfl, fun _ => rfl,
                    fun _ => rfl, fun _ => rfl, fun _ => rfl, fun hc => absurd h8 hc,
                    fun _ => rfl, fun _ => rfl, fun _ => rfl⟩
                · rw [if_neg h8]
                  by_cases h9 : k2 = "question_pattern"
                  · rw [if_pos h9]
                    exact ⟨fun _ => rfl, fun _ => rfl, fun _ => rfl, fun _ => rfl,
                      fun _ => rfl, fun _ => rfl, fun _ => rfl, fun _ => rfl,
                      fun hc => absurd h9 hc, fun _ => rfl, fun _ => rfl⟩
                  · rw [if_neg h9]
                    by_cases h10 : k2 = "created_at"
                    · rw [if_pos h10]
                      exact ⟨fun _ => rfl, fun _ => rfl, fun _ => rfl, fun _ => rfl,
                        fun _ => rfl, fun _ => rfl, fun _ => rfl, fun _ => rfl,
                        fun _ => rfl, fun hc => absurd h10 hc, fun _ => rfl⟩
                    · rw [if_neg h10]
                      by_cases h11 : k2 = "updated_at"
                      · rw [if_pos h11]
                        exact ⟨fun _ => rfl, fun _ => rfl, fun _ => rfl, fun _ => rfl,
                          fun _ => rfl, fun _ => rfl, fun _ => rfl, fun _ => rfl,
                          fun _ => rfl, fun _ => rfl, fun hc => absurd h11 hc⟩
                      · rw [if_neg h11]
                        exact ⟨fun _ => rfl, fun _ => rfl, fun _ => rfl, fun _ => rfl,
                          fun _ => rfl, fun _ => rfl, fun _ => rfl, fun _ => rfl,
                          fun _ => rfl, fun _ => rfl, fun _ => rfl⟩

lemma getAttr_setAttr_ne {q : MCQ} {k k2 : String} {v : Val} (h : k ≠ k2) :
    getAttr (setAttr q k2 v) k = getAttr q k := by
  have hf := setAttr_fields q k2 v
  by_cases hk1 : k = "id"
  · subst hk1
    show some (setAttr q k2 v).id = some q.id
    exact congrArg some (hf.1 (Ne.symm h))
  · by_cases hk2 : k = "learning_item_id"
    · subst hk2
      show some (setAttr q k2 v).learning_item_id = some q.learning_item_id
      exact congrArg some (hf.2.1 (Ne.symm h))
    · by_cases hk3 : k = "question_text"
      · subst hk3
        show some (setAttr q k2 v).question_text = some q.question_text
        exact congrArg some (hf.2.2.1 (Ne.symm h))
      · by_cases hk4 : k = "options"
        · subst hk4
          show some (setAttr q k2 v).options = some q.options
          exact congrArg some (hf.2.2.2.1 (Ne.symm h))
        · by_cases hk5 : k = "correct_option_ids"
          · subst hk5
            show some (setAttr q k2 v).correct_option_ids = some q.correct_option_ids
            exact congrArg some (hf.2.2.2.2.1 (Ne.symm h))
          · by_cases hk6 : k = "is_multi_select"
            · subst hk6
              show some (setAttr q k2 v).is_multi_select = some q.is_multi_select
              exact congrArg some (hf.2.2.2.2.2.1 (Ne.symm h))
            · by_cases hk7 : k = "explanation"
              · subst hk7
                show some (setAttr q k2 v).explanation = some q.explanation
                exact congrArg some (hf.2.2.2.2.2.2.1 (Ne.symm h))
              · by_cases hk8 : k = "silly_mistake_prone"
                · subst hk8
                  show some (setAttr q k2 v).silly_mistake_prone =
                    some q.silly_mistake_prone
                  exact congrArg some (hf.2.2.2.2.2.2.2.1 (Ne.symm h))
                · by_cases hk9 : k = "question_pattern"
                  · subst hk9
                    show some (setAttr q k2 v).question_pattern = some q.question_pattern
                    exact congrArg some (hf.2.2.2.2.2.2.2.2.1 (Ne.symm h))
                  · by_cases hk10 : k = "created_at"
                    · subst hk10
                      show some (setAttr q k2 v).created_at = some q.created_at
                      exact congrArg some (hf.2.2.2.2.2.2.2.2.2.1 (Ne.symm h))
                    · by_cases hk11 : k = "updated_at"
                      · subst hk11
                        show some (setAttr q k2 v).updated_at = some q.updated_at
                        exact congrArg some (hf.2.2.2.2.2.2.2.2.2.2 (Ne.symm h))
                      · unfold getAttr
                        simp only [if_neg hk1, if_neg hk2, if_neg hk3, if_neg hk4,
                          if_neg hk5, if_neg hk6, if_neg hk7, if_neg hk8, if_neg hk9,
                          if_neg hk10, if_neg hk11]

lemma setAttr_unknown {q : MCQ} {k : String} {v : Val} (h : k ∉ attrNames) :
    setAttr q k v = q := by
  have hk1 : k ≠ "id" := fun hc => absurd (hc ▸ h) (by decide)
  have hk2 : k ≠ "learning_item_id" := fun hc => absurd (hc ▸ h) (by decide)
  have hk3 : k ≠ "question_text" := fun hc => absurd (hc ▸ h) (by decide)
  have hk4 : k ≠ "options" := fun hc => absurd (hc ▸ h) (by decide)
  have hk5 : k ≠ "correct_option_ids" := fun hc => absurd (hc ▸ h) (by decide)
  have hk6 : k ≠ "is_multi_select" := fun hc => absurd (hc ▸ h) (by decide)
  have hk7 : k ≠ "explanation" := fun hc => absurd (hc ▸ h) (by decide)
  have hk8 : k ≠ "silly_mistake_prone" := fun hc => absurd (hc ▸ h) (by decide)
  have hk9 : k ≠ "question_pattern" := fun hc => absurd (hc ▸ h) (by decide)
  have hk10 : k ≠ "created_at" := fun hc => absurd (hc ▸ h) (by decide)
  have hk11 : k ≠ "updated_at" := fun hc => absurd (hc ▸ h) (by decide)
  unfold setAttr
  simp only [if_neg hk1, if_neg hk2, if_neg hk3, if_neg hk4, if_neg hk5, if_neg hk6,
    if_neg hk7, if_neg hk8, if_neg hk9, if_neg hk10, if_neg hk11]

lemma getAttr_applyUpdates_ne {updates : List (String × Val)} :
    ∀ (q : MCQ) (k : String), k ∉ updates.map Prod.fst →
      getAttr (applyUpdates q updates) k = getAttr q k := by
  induction updates with
  | nil => intro q k _; rfl
  | cons kv rest ih =>
      intro q k hk
      have hk1 : k ≠ kv.1 := by
        intro hc
        exact hk (by simp [hc])
      have hk2 : k ∉ rest.map Prod.fst := by
        intro hc
        exact hk (by simp [hc])
      show getAttr (applyUpdates (setAttr q kv.1 kv.2) rest) k = getAttr q k
      rw [ih (setAttr q kv.1 kv.2) k hk2, getAttr_setAttr_ne hk1]

lemma applyUpdates_filter_known : ∀ (updates : List (String × Val)) (q : MCQ),
    applyUpdates q updates =
      applyUpdates q (updates.filter (fun kv => decide (kv.1 ∈ attrNames))) := by
  intro updates
  induction updates with
  | nil => intro q; rfl
  | cons kv rest ih =>
      intro q
      by_cases hc : kv.1 ∈ attrNames
      · have hf : (kv :: rest).filter (fun kv => decide (kv.1 ∈ attrNames)) =
            kv :: rest.filter (fun kv => decide (kv.1 ∈ attrNames)) := by
          simp [List.filter_cons, hc]
        rw [hf]
        show applyUpdates (setAttr q kv.1 kv.2) rest =
          applyUpdates (setAttr q kv.1 kv.2) (rest.filter (fun kv => decide (kv.1 ∈ attrNames)))
        exact ih (setAttr q kv.1 kv.2)
      · have hf : (kv :: rest).filter (fun kv => decide (kv.1 ∈ attrNames)) =
            rest.filter (fun kv => decide (kv.1 ∈ attrNames)) := by
          simp [List.filter_cons, hc]
        rw [hf]
        show applyUpdates (setAttr q kv.1 kv.2) rest =
          applyUpdates q (rest.filter (fun kv => decide (kv.1 ∈ attrNames)))
        rw [setAttr_unknown hc]
        exact ih q

/-- C10: `update_question` is a frame-respecting single-row edit: when no
MCQ has the id it returns `None` and mutates nothing; otherwise only the
first matching row changes, and it changes exactly by the attribute
assignments of the updates mapping — keys naming no attribute are silently
dropped, and every attribute not named in the updates keeps its value; the
learning-items table is untouched. -/
theorem claim_C10_update_question_frame (db : QuizDB) (question_id : Val)
    (updates : List (String × Val)) :
    ((∀ m ∈ db.mcqs, m.id ≠ question_id) →
      update_question db question_id updates = (db, none))
    ∧ (update_question db question_id updates).1.learning_items = db.learning_items
    ∧ (update_question db question_id updates).1.mcqs.length = db.mcqs.length
    ∧ (∀ i (h1 : i < db.mcqs.length)
        (h2 : i < (update_question db question_id updates).1.mcqs.length),
        (update_question db question_id updates).1.mcqs.get ⟨i, h2⟩ = db.mcqs.get ⟨i, h1⟩
        ∨ ((update_question db question_id updates).1.mcqs.get ⟨i, h2⟩ =
              applyUpdates (db.mcqs.get ⟨i, h1⟩) updates
            ∧ (db.mcqs.get ⟨i, h1⟩).id = question_id))
    ∧ (∀ q k, k ∉ updates.map Prod.fst →
        getAttr (applyUpdates q updates) k = getAttr q k)
    ∧ (∀ q, applyUpdates q updates =
        applyUpdates q (updates.filter (fun kv => decide (kv.1 ∈ attrNames)))) := by
  refine ⟨?_, rfl, (updateFirst_frame question_id updates db.mcqs).1,
    (updateFirst_frame question_id updates db.mcqs).2,
    fun q k hk => getAttr_applyUpdates_ne q k hk,
    fun q => applyUpdates_filter_known updates q⟩
  intro h
  unfold update_question
  rw [updateFirst_no_match h]

/-- Witness for C10: updating a missing question id returns `None` and
leaves the database unchanged. -/
theorem claim_C10_witness :
    update_question
      ⟨[], [⟨.vnat 1, .vnat 10, .vnone, .vnone, .vnone, .vnone, .vnone, .vnone, .vnone,
        .vnone, .vnone⟩], [], []⟩ (.vnat 2) [("question_text", .vstr "edited")] =
      (⟨[], [⟨.vnat 1, .vnat 10, .vnone, .vnone, .vnone, .vnone, .vnone, .vnone, .vnone,
        .vnone, .vnone⟩], [], []⟩, none) :=
  (claim_C10_update_question_frame
    ⟨[], [⟨.vnat 1, .vnat 10, .vnone, .vnone, .vnone, .vnone, .vnone, .vnone, .vnone,
      .vnone, .vnone⟩], [], []⟩ (.vnat 2) [("question_text", .vstr "edited")]).1
    (by decide)

end CAVerify
